import Mathlib

/-!
Verification development for the webcache HTTP response-caching middleware
(lib/webcache.js). The definitions below are a shallow embedding of the
source: JavaScript strings become Lean `String`, buffers become strings of
bytes-as-characters, nullable values become `Option`, millisecond clocks
become explicit `Nat` time parameters, and the asynchronous store reads
become explicit `ReadResult` inputs to the per-request handler.
-/

namespace WebCache

/-- Splits a character list at every occurrence of the separator character.
Mirrors the behaviour of the JavaScript `String.split` with a one-character
separator: the result is always non-empty and empty fields are kept. -/
def splitOnChar (sep : Char) : List Char → List (List Char)
  | [] => [[]]
  | x :: xs =>
    let r := splitOnChar sep xs
    if x = sep then [] :: r
    else
      match r with
      | [] => [[x]]
      | h :: t => (x :: h) :: t

/-- Removes whitespace from both ends of a character list, as the JavaScript
`String.trim` does. -/
def trimChars (cs : List Char) : List Char :=
  ((cs.dropWhile Char.isWhitespace).reverse.dropWhile Char.isWhitespace).reverse

/-- The leading decimal-digit run of a character list. -/
def digitsPrefixOf (cs : List Char) : List Char :=
  cs.takeWhile Char.isDigit

/-- Numeric value of a list of decimal digits. -/
def digitsToNat (ds : List Char) : Nat :=
  ds.foldl (fun a c => a * 10 + (c.toNat - 48)) 0

/-- Embedding of the JavaScript `parseInt(s, 10)`: leading whitespace is
skipped, an optional sign is consumed, and the longest leading digit run is
the value; `none` stands for `NaN` (no digits found). -/
def jsParseInt10 (s : String) : Option Int :=
  let cs := trimChars s.toList
  match cs with
  | '-' :: rest =>
    if digitsPrefixOf rest = [] then none else some (-(digitsToNat (digitsPrefixOf rest) : Int))
  | '+' :: rest =>
    if digitsPrefixOf rest = [] then none else some ((digitsToNat (digitsPrefixOf rest) : Int))
  | _ =>
    if digitsPrefixOf cs = [] then none else some ((digitsToNat (digitsPrefixOf cs) : Int))

/-- One Cache-Control directive as stored by `parseCacheControl` in the
source: the trimmed name, and either a parsed integer value or `none` for
the boolean flag `true` (no `=` part, or an unparseable value). -/
def parseDirective (d : List Char) : String × Option Int :=
  let parts := splitOnChar '=' d
  let key := String.mk (trimChars (parts.headD []))
  let v : Option Int :=
    match parts.drop 1 with
    | [] => none
    | v1 :: _ => jsParseInt10 (String.mk v1)
  (key, v)

/-- Embedding of `parseCacheControl` from lib/webcache.js: split the header
on commas, then split each directive on `=`; the name is trimmed and the
value is `parseInt(v, 10)`, with unparseable values standing for the
JavaScript boolean `true`. Later duplicates overwrite earlier ones in the
JavaScript object, which the lookup below models by scanning in reverse. -/
def parseCacheControl (str : String) : List (String × Option Int) :=
  (splitOnChar ',' str.toList).map parseDirective

/-- Truthiness of `parseCacheControl(str)[no-cache]` in the source: absent
is falsy, the flag `true` is truthy, an integer value is truthy iff it is
non-zero. The last duplicate directive wins, as in a JavaScript object. -/
def ccNoCacheTruthy (str : String) : Bool :=
  match (parseCacheControl str).reverse.find? (fun e => e.1 == "no-cache") with
  | none => false
  | some (_, none) => true
  | some (_, some v) => v != 0

/-- Embedding of the guarded check `cc && parseCacheControl(cc)[no-cache]`
used for both the request header and the captured response header: a
missing or empty header string is falsy and short-circuits the parse. -/
def headerNoCache : Option String → Bool
  | none => false
  | some s => (s != "") && ccNoCacheTruthy s

/-- JavaScript truthiness of a nullable string value: `null` and the empty
string are falsy. -/
def optTruthy : Option String → Bool
  | none => false
  | some s => s != ""

/-- The pathname component of a request url, as produced by
`require(url).parse(req.url).pathname` for the path-plus-query request
targets this middleware sees: everything before the first `?`. -/
def urlPathname (url : String) : String :=
  String.mk ((splitOnChar '?' url.toList).headD url.toList)

/-- Embedding of `TEXT_RE = /^(?:text\/|application\/json|application\/javascript)/i`
applied via `TEXT_RE.test(contentType)`: an anchored, case-insensitive
prefix test for the three text-like content-type shapes. -/
def TEXT_RE_test (s : String) : Bool :=
  let l := s.toList.map Char.toLower
  List.isPrefixOf "text/".toList l ||
  List.isPrefixOf "application/json".toList l ||
  List.isPrefixOf "application/javascript".toList l

/-- One cache rule after the constructor has filled in the defaults. The
regular expression of the source is embedded abstractly as the boolean
test it induces on the pathname. -/
structure Rule where
  matchTest : String → Bool
  maxAge : Nat
  ignoreQuerystring : Bool
  clientCache : Bool

/-- Embedding of the rule-selection loop of the middleware: scan the rules
in declaration order, testing each pattern against the pathname, and keep
overwriting the current match, so the last matching rule wins. -/
def matchRule (rules : List Rule) (pathname : String) : Option Rule :=
  rules.foldl (fun acc r => if r.matchTest pathname then some r else acc) none

/-- The rule-selection policy as the specification words it: the last rule,
in declaration order, whose pattern matches the pathname. Stated from the
specification for comparison with `matchRule`, which is the source loop. -/
def lastMatchingRule (rules : List Rule) (pathname : String) : Option Rule :=
  (rules.filter (fun r => r.matchTest pathname)).getLast?

/-- The url that enters the cache key: the full request url, or only the
pathname when the matched rule ignores the query string. -/
def effectiveUrl (rule : Rule) (url : String) : String :=
  if rule.ignoreQuerystring then urlPathname url else url

/-- Embedding of the key derivation of the middleware:
`key = "wc_" + url + "_" + version`. -/
def cacheKey (version : String) (rule : Rule) (url : String) : String :=
  "wc_" ++ effectiveUrl rule url ++ "_" ++ version

/-- An incoming HTTP request as the middleware observes it: method, raw
url, and the optional request Cache-Control header. -/
structure Request where
  method : String
  url : String
  cacheControl : Option String

/-- Result of one asynchronous store read: a value (possibly null) or an
error routed to the error handler of the event join. -/
inductive ReadResult where
  | ok (value : Option String)
  | err
deriving DecidableEq, Repr

/-- How the middleware disposes of one request: pass straight through to
the next handler (non-GET or no matching rule), serve the cached body with
the given response headers, or invoke the next handler under the response
capture wrapper that may later persist under the given keys and TTL. -/
inductive Outcome where
  | passthrough
  | hit (headers : List (String × String)) (body : String)
  | capture (key keyContentType : String) (maxAge : Nat)
deriving DecidableEq, Repr

/-- Whether an outcome serves the response from the cache. -/
def Outcome.isHit : Outcome → Bool
  | .hit _ _ => true
  | _ => false

/-- The response headers the hit path sets, in order: the Content-Type
header when the cached content type is truthy, the X-Cache-By marker, and
the public max-age Cache-Control header when the rule enables client-side
caching and its TTL is at least 1000 ms. -/
def hitHeaders (pkgVersion : String) (clientCache : Bool) (maxAge : Nat)
    (contentType : Option String) : List (String × String) :=
  (if optTruthy contentType then [("Content-Type", contentType.getD "")] else []) ++
  [("X-Cache-By", "WebCache" ++ pkgVersion)] ++
  (if clientCache = true ∧ 1000 ≤ maxAge then
    [("Cache-Control", "public, max-age=" ++ toString (maxAge / 1000))]
  else [])

/-- Embedding of the per-request control flow of the middleware: filter on
the method, select the rule by pathname, derive the key, and dispatch on
the two store reads exactly as the event join and its callback do: any
read error, a null or empty cached body, or a truthy request no-cache
directive leads to the capture path; otherwise the cached body is served. -/
def webcacheHandle (pkgVersion version : String) (rules : List Rule) (req : Request)
    (bodyRead ctRead : ReadResult) : Outcome :=
  if req.method ≠ "GET" then .passthrough
  else
    match matchRule rules (urlPathname req.url) with
    | none => .passthrough
    | some rule =>
      let key := cacheKey version rule req.url
      let keyContentType := key ++ "_ct"
      match bodyRead, ctRead with
      | .ok content, .ok contentType =>
        if optTruthy content then
          if headerNoCache req.cacheControl = false then
            .hit (hitHeaders pkgVersion rule.clientCache rule.maxAge contentType)
              (content.getD "")
          else .capture key keyContentType rule.maxAge
        else .capture key keyContentType rule.maxAge
      | _, _ => .capture key keyContentType rule.maxAge

/-- State of the captured response at completion time, as the overridden
`res.end` observes it: final status code, the response Cache-Control and
Content-Type headers, and the accumulated chunk buffer. -/
structure CaptureResponse where
  statusCode : Nat
  cacheControl : Option String
  contentType : Option String
  chunks : List String
deriving DecidableEq, Repr

/-- One `cache.set(key, value, maxAge)` call issued at flush time. -/
structure SetCall where
  key : String
  value : String
  maxAge : Nat
deriving DecidableEq, Repr

/-- Embedding of the flush decision in the overridden `res.end`: after the
real response is ended, persist nothing unless the status is 200, the
response Cache-Control header has no truthy no-cache directive, the chunk
list is non-empty, the concatenated buffer is non-empty, and the response
carries a truthy Content-Type that passes `TEXT_RE`; when all hold, issue
the body write and the content-type write, both with the rule TTL. -/
def resEndFlush (key keyContentType : String) (maxAge : Nat)
    (res : CaptureResponse) : List SetCall :=
  if res.statusCode ≠ 200 then []
  else if headerNoCache res.cacheControl then []
  else if res.chunks.length > 0 then
    let buf := String.join res.chunks
    if buf.length > 0 then
      match res.contentType with
      | some contentType =>
        if contentType != "" then
          if TEXT_RE_test contentType then
            [⟨key, buf, maxAge⟩, ⟨keyContentType, contentType, maxAge⟩]
          else []
        else []
      | none => []
    else []
  else []

/-- One intercepted `res.write` in capture mode: the chunk is forwarded to
the original write and also appended to the accumulation buffer. The state
is the pair of the chunks delivered to the client and the buffered chunks. -/
def captureWrite (st : List String × List String) (chunk : String) :
    List String × List String :=
  (st.1 ++ [chunk], st.2 ++ [chunk])

/-- Running the capture wrapper over the whole sequence of origin writes. -/
def captureRun (originChunks : List String) : List String × List String :=
  originChunks.foldl captureWrite ([], [])

/-- One record of the in-memory store: the triple
`[value, expired, maxAge]` that `MemoryStore.set` stores. -/
structure MemRecord where
  value : Option String
  expired : Nat
  maxAge : Nat
deriving DecidableEq, Repr

/-- The in-memory store: the `_data` object as an association list with
unique keys. -/
structure MemoryStore where
  data : List (String × MemRecord)
deriving DecidableEq, Repr

/-- Embedding of `MemoryStore.prototype.set`: compute the absolute expiry
instant (zero when the TTL is falsy) and overwrite the record under the
key. The current clock value is an explicit parameter. -/
def MemoryStore.set (st : MemoryStore) (key : String) (value : Option String)
    (maxAge now : Nat) : MemoryStore :=
  let expired := if maxAge ≠ 0 then now + maxAge else 0
  ⟨(key, ⟨value, expired, maxAge⟩) :: st.data.filter (fun e => !(e.1 == key))⟩

/-- Embedding of `MemoryStore.prototype.get`: a missing record is a miss; a
record whose truthy expiry instant has been reached is deleted and read as
a miss; otherwise the stored value is returned unchanged. -/
def MemoryStore.get (st : MemoryStore) (key : String) (now : Nat) :
    MemoryStore × Option String :=
  match st.data.find? (fun e => e.1 == key) with
  | none => (st, none)
  | some (_, r) =>
    if r.expired ≠ 0 ∧ r.expired ≤ now then
      (⟨st.data.filter (fun e => !(e.1 == key))⟩, none)
    else (st, r.value)

/-- The command the remote-backend adapter issues to the underlying client. -/
inductive RedisCall where
  | del (key : String)
  | setex (key : String) (seconds : Nat) (value : String)
  | set (key : String) (value : String)
deriving DecidableEq, Repr

/-- Embedding of `RedisStore.prototype.set`: a falsy value is a deletion;
otherwise the TTL is converted to whole seconds only when it is truthy and
at least 1000 ms, and a zero second count falls back to a plain set with
no expiry. -/
def RedisStore.set (key : String) (value : Option String) (maxAge : Nat) : RedisCall :=
  if optTruthy value = false then RedisCall.del key
  else
    let seconds := if maxAge ≠ 0 ∧ 1000 ≤ maxAge then maxAge / 1000 else 0
    if seconds ≠ 0 then RedisCall.setex key seconds (value.getD "")
    else RedisCall.set key (value.getD "")

/-- A concrete rule used to instantiate theorems that carry hypotheses:
matches every pathname, one hour TTL, client caching enabled. -/
def sampleRule : Rule :=
  { matchTest := fun _ => true, maxAge := 3600000
    ignoreQuerystring := false, clientCache := true }

/-- A concrete rule that ignores the query string, with a sub-second TTL. -/
def sampleRuleIgnore : Rule :=
  { matchTest := fun _ => true, maxAge := 500
    ignoreQuerystring := true, clientCache := false }

theorem foldl_matchStep (p : String) (l : List Rule) :
    ∀ acc : Option Rule,
      l.foldl (fun acc r => if r.matchTest p then some r else acc) acc =
        ((l.filter (fun r => r.matchTest p)).getLast?).elim acc some := by
  induction l using List.reverseRecOn with
  | nil => intro acc; simp
  | append_singleton rs r ih =>
    intro acc
    rw [List.foldl_append, List.filter_append, ih]
    cases hr : r.matchTest p <;>
      simp [hr, List.getLast?_concat]

theorem matchRule_eq_lastMatchingRule (rules : List Rule) (p : String) :
    matchRule rules p = lastMatchingRule rules p := by
  unfold matchRule lastMatchingRule
  rw [foldl_matchStep]
  cases (rules.filter (fun r => r.matchTest p)).getLast? <;> simp

theorem memGet_memSet_fresh (st : MemoryStore) (key : String) (value : Option String)
    (maxAge t now : Nat) (h : maxAge ≠ 0 → now < t + maxAge) :
    MemoryStore.get (MemoryStore.set st key value maxAge t) key now =
      (MemoryStore.set st key value maxAge t, value) := by
  simp only [MemoryStore.set, MemoryStore.get]
  rw [List.find?_cons_of_pos _ (by simp)]
  dsimp only
  rw [if_neg ?_]
  by_cases hm : maxAge = 0
  · simp [hm]
  · have hlt := h hm
    simp only [if_pos hm, ne_eq]
    intro hc
    omega

theorem memGet_memSet_expired (st : MemoryStore) (key : String) (value : Option String)
    (maxAge t now : Nat) (hm : maxAge ≠ 0) (hle : t + maxAge ≤ now) :
    MemoryStore.get (MemoryStore.set st key value maxAge t) key now =
      (⟨st.data.filter (fun e => !(e.1 == key))⟩, none) := by
  simp only [MemoryStore.set, MemoryStore.get]
  rw [List.find?_cons_of_pos _ (by simp)]
  dsimp only
  rw [if_pos (by simp only [if_pos hm]; constructor <;> omega)]
  simp [List.filter_filter]

theorem find?_filter_ne_key (l : List (String × MemRecord)) (key : String) :
    (l.filter (fun e => !(e.1 == key))).find? (fun e => e.1 == key) = none := by
  rw [List.find?_eq_none]
  intro x hx
  have := List.mem_filter.mp hx
  simpa using this.2

theorem captureRun_pair (cs : List String) : captureRun cs = (cs, cs) := by
  have h : ∀ (l a b : List String),
      l.foldl captureWrite (a, b) = (a ++ l, b ++ l) := by
    intro l
    induction l with
    | nil => intro a b; simp
    | cons x xs ih =>
      intro a b
      rw [List.foldl_cons]
      show xs.foldl captureWrite (a ++ [x], b ++ [x]) = _
      rw [ih]
      simp
  simpa using h cs [] []

theorem TEXT_RE_test_empty : TEXT_RE_test "" = false := by decide

theorem resEndFlush_spec (key kct : String) (maxAge : Nat) (res : CaptureResponse) :
    (resEndFlush key kct maxAge res ≠ [] ↔
      (res.statusCode = 200 ∧ headerNoCache res.cacheControl = false ∧
       String.join res.chunks ≠ "" ∧
       ∃ ct, res.contentType = some ct ∧ TEXT_RE_test ct = true)) ∧
    (∀ ct, res.contentType = some ct → resEndFlush key kct maxAge res ≠ [] →
      resEndFlush key kct maxAge res =
        [⟨key, String.join res.chunks, maxAge⟩, ⟨kct, ct, maxAge⟩]) := by
  obtain ⟨st, cc, ctH, chunks⟩ := res
  unfold resEndFlush
  dsimp only
  by_cases h1 : st = 200
  case neg =>
    rw [if_pos (by simp [h1])]
    simp [h1]
  case pos =>
  rw [if_neg (by simp [h1])]
  by_cases h2 : headerNoCache cc = true
  case pos =>
    rw [if_pos (by simpa using h2)]
    simp [h1, h2]
  case neg =>
  rw [if_neg (by simpa using h2)]
  simp only [Bool.not_eq_true] at h2
  by_cases h3 : String.join chunks = ""
  · have hlen : ¬ (String.join chunks).length > 0 := by
      rw [h3]; decide
    by_cases h4 : chunks = []
    · rw [if_neg (by simp [h4])]
      simp [h3]
    · rw [if_pos (by simpa [List.length_pos] using h4)]
      rw [if_neg hlen]
      simp [h3]
  · have h4 : chunks ≠ [] := by
      intro h; rw [h] at h3; exact h3 rfl
    rw [if_pos (by simpa [List.length_pos] using h4)]
    have hlen : (String.join chunks).length > 0 := by
      have hne : (String.join chunks).data ≠ [] := by
        intro hd
        exact h3 (String.ext hd)
      have := List.length_pos.mpr hne
      simpa [String.length] using this
    rw [if_pos hlen]
    cases ctH with
    | none => simp [h1, h2, h3]
    | some c =>
      dsimp only
      by_cases h5 : c = ""
      · subst h5
        simp [h1, h2, h3, TEXT_RE_test_empty]
      · rw [if_pos (by simpa using h5)]
        by_cases h6 : TEXT_RE_test c
        · rw [if_pos h6]
          simp [h1, h2, h3, h6]
        · rw [if_neg h6]
          simp only [Bool.not_eq_true] at h6
          simp [h1, h2, h3, h6]

theorem cacheKey_inj_url (v : String) (r₁ r₂ : Rule) (u₁ u₂ : String)
    (h : cacheKey v r₁ u₁ = cacheKey v r₂ u₂) :
    effectiveUrl r₁ u₁ = effectiveUrl r₂ u₂ := by
  unfold cacheKey at h
  have hd := congrArg String.data h
  simp only [String.data_append] at hd
  have h1 := List.append_cancel_right hd
  have h2 := List.append_cancel_right h1
  exact String.ext (List.append_cancel_left h2)

theorem cacheKey_inj_version (v₁ v₂ : String) (r₁ r₂ : Rule) (u₁ u₂ : String)
    (hu : effectiveUrl r₁ u₁ = effectiveUrl r₂ u₂)
    (h : cacheKey v₁ r₁ u₁ = cacheKey v₂ r₂ u₂) : v₁ = v₂ := by
  unfold cacheKey at h
  rw [hu] at h
  have hd := congrArg String.data h
  simp only [String.data_append] at hd
  exact String.ext (List.append_cancel_left hd)

theorem mem_hitHeaders (pkg : String) (cc : Bool) (ma : Nat) (ct : Option String)
    (p : String × String) :
    p ∈ hitHeaders pkg cc ma ct ↔
      ((optTruthy ct = true ∧ p = ("Content-Type", ct.getD "")) ∨
       p = ("X-Cache-By", "WebCache" ++ pkg) ∨
       ((cc = true ∧ 1000 ≤ ma) ∧
        p = ("Cache-Control", "public, max-age=" ++ toString (ma / 1000)))) := by
  unfold hitHeaders
  by_cases h1 : optTruthy ct = true <;>
    by_cases h2 : cc = true ∧ 1000 ≤ ma <;>
      simp [h1, h2]

theorem headers_ne_ct : ∀ v w : String, ("Cache-Control", v) = (("Content-Type", w) : String × String) → False := by
  intro v w h
  have := congrArg Prod.fst h
  simp at this

theorem headers_ne_xcb : ∀ v w : String, ("Cache-Control", v) = (("X-Cache-By", w) : String × String) → False := by
  intro v w h
  have := congrArg Prod.fst h
  simp at this

/-- C1, counterexample to the claim as stated: a completed capture with
final status 200, no response no-cache directive, a non-empty buffer and a
present Content-Type header (image/png) satisfies all four stated persist
conditions, yet the flush issues no store write, refuting the
if-and-only-if of the claim. -/
theorem claim_C1_counterexample :
    ((⟨200, none, some "image/png", ["x"]⟩ : CaptureResponse).statusCode = 200 ∧
     headerNoCache (⟨200, none, some "image/png", ["x"]⟩ : CaptureResponse).cacheControl = false ∧
     String.join (⟨200, none, some "image/png", ["x"]⟩ : CaptureResponse).chunks ≠ "" ∧
     (⟨200, none, some "image/png", ["x"]⟩ : CaptureResponse).contentType ≠ none) ∧
    resEndFlush "wc_/p_" ("wc_/p_" ++ "_ct") 3600000
      ⟨200, none, some "image/png", ["x"]⟩ = [] := by
  decide

/-- C1 as amended: at flush time the buffered response is persisted (two
writes, body under the key and content type under the key with the ct
suffix, both with the matched rule TTL) if and only if the final status is
exactly 200, the response Cache-Control header carries no truthy no-cache
directive, the accumulated buffer is non-empty, and a Content-Type header
is present whose value matches the text-like pattern of TEXT_RE; otherwise
the buffer is discarded with no write. -/
theorem claim_C1_amended (key : String) (maxAge : Nat) (res : CaptureResponse) :
    (resEndFlush key (key ++ "_ct") maxAge res ≠ [] ↔
      (res.statusCode = 200 ∧ headerNoCache res.cacheControl = false ∧
       String.join res.chunks ≠ "" ∧
       ∃ ct, res.contentType = some ct ∧ TEXT_RE_test ct = true)) ∧
    (∀ ct, res.contentType = some ct → resEndFlush key (key ++ "_ct") maxAge res ≠ [] →
      resEndFlush key (key ++ "_ct") maxAge res =
        [⟨key, String.join res.chunks, maxAge⟩, ⟨key ++ "_ct", ct, maxAge⟩]) :=
  resEndFlush_spec key (key ++ "_ct") maxAge res

/-- C1 witness: the amended theorem applied to a concrete eligible
response shows the two writes with the rule TTL. -/
theorem claim_C1_amended_witness :
    resEndFlush "wc_/a_" ("wc_/a_" ++ "_ct") 3600000
        ⟨200, none, some "text/html", ["GET /a"]⟩ =
      [⟨"wc_/a_", String.join ["GET /a"], 3600000⟩,
       ⟨"wc_/a_" ++ "_ct", "text/html", 3600000⟩] :=
  (claim_C1_amended "wc_/a_" 3600000 ⟨200, none, some "text/html", ["GET /a"]⟩).2
    "text/html" rfl (by decide)

/-- C2: for a GET request with a matched rule, the request is served from
the cache exactly when both store reads succeeded, the cached body is
non-empty, and the request carries no truthy no-cache directive; on a hit
the response is the cached body with the hit headers: the Content-Type
header from the truthy cached value, the X-Cache-By marker holding the
middleware name and version, and the public max-age Cache-Control header
(whole seconds, rounded down) exactly when the rule enables client caching
with a TTL of at least 1000 ms; the origin handler is not invoked. -/
theorem claim_C2_hit (pkgVersion version : String) (rules : List Rule) (req : Request)
    (bodyRead ctRead : ReadResult) (rule : Rule)
    (hm : req.method = "GET")
    (hr : matchRule rules (urlPathname req.url) = some rule) :
    ((webcacheHandle pkgVersion version rules req bodyRead ctRead).isHit = true ↔
      ((∃ s, bodyRead = ReadResult.ok (some s) ∧ s ≠ "") ∧
       (∃ v, ctRead = ReadResult.ok v) ∧
       headerNoCache req.cacheControl = false)) ∧
    (∀ s ct, bodyRead = ReadResult.ok (some s) → s ≠ "" →
      ctRead = ReadResult.ok ct → headerNoCache req.cacheControl = false →
      webcacheHandle pkgVersion version rules req bodyRead ctRead =
        Outcome.hit (hitHeaders pkgVersion rule.clientCache rule.maxAge ct) s) ∧
    (∀ ct, ("X-Cache-By", "WebCache" ++ pkgVersion) ∈
      hitHeaders pkgVersion rule.clientCache rule.maxAge ct) ∧
    (∀ ct, (("Cache-Control", "public, max-age=" ++ toString (rule.maxAge / 1000)) ∈
        hitHeaders pkgVersion rule.clientCache rule.maxAge ct ↔
      (rule.clientCache = true ∧ 1000 ≤ rule.maxAge))) ∧
    (∀ v, v ≠ "" →
      ("Content-Type", v) ∈ hitHeaders pkgVersion rule.clientCache rule.maxAge (some v)) := by
  refine ⟨?_, ?_, ?_, ?_, ?_⟩
  · unfold webcacheHandle
    rw [if_neg (by simp [hm]), hr]
    dsimp only
    cases bodyRead with
    | err => simp [Outcome.isHit]
    | ok content =>
      cases ctRead with
      | err => simp [Outcome.isHit]
      | ok ct =>
        cases content with
        | none => simp [optTruthy, Outcome.isHit]
        | some s =>
          by_cases hs : s = ""
          · subst hs
            simp [optTruthy, Outcome.isHit]
          · by_cases hcc : headerNoCache req.cacheControl = false
            · simp [optTruthy, hs, hcc, Outcome.isHit]
            · simp [optTruthy, hs, hcc, Outcome.isHit]
  · intro s ct hb hs hc hcc
    subst hb; subst hc
    unfold webcacheHandle
    rw [if_neg (by simp [hm]), hr]
    dsimp only
    rw [if_pos (by simp [optTruthy, hs]), if_pos hcc]
    rfl
  · intro ct
    exact (mem_hitHeaders pkgVersion rule.clientCache rule.maxAge ct _).mpr
      (Or.inr (Or.inl rfl))
  · intro ct
    rw [mem_hitHeaders]
    constructor
    · rintro (⟨_, hp⟩ | hp | ⟨hc, _⟩)
      · exact absurd hp (by exact fun h => headers_ne_ct _ _ h)
      · exact absurd hp (by exact fun h => headers_ne_xcb _ _ h)
      · exact hc
    · intro hc
      exact Or.inr (Or.inr ⟨hc, rfl⟩)
  · intro v hv
    exact (mem_hitHeaders pkgVersion rule.clientCache rule.maxAge (some v) _).mpr
      (Or.inl ⟨by simp [optTruthy, hv], rfl⟩)

/-- C2 witness: a concrete matched GET request with both reads succeeding,
a non-empty cached body and no request no-cache directive is served from
the cache. -/
theorem claim_C2_hit_witness :
    ((⟨"GET", "/a", none⟩ : Request).method = "GET") ∧
    matchRule [sampleRule] (urlPathname (Request.url ⟨"GET", "/a", none⟩)) = some sampleRule ∧
    (webcacheHandle "0.0.4" "2012" [sampleRule] ⟨"GET", "/a", none⟩
      (ReadResult.ok (some "GET /a")) (ReadResult.ok (some "text/html"))).isHit = true :=
  ⟨rfl, rfl,
    ((claim_C2_hit "0.0.4" "2012" [sampleRule] ⟨"GET", "/a", none⟩
        (ReadResult.ok (some "GET /a")) (ReadResult.ok (some "text/html"))
        sampleRule rfl rfl).1).mpr
      ⟨⟨"GET /a", rfl, by decide⟩, ⟨some "text/html", rfl⟩, rfl⟩⟩

/-- C3: a non-GET request passes through regardless of the rule list; the
rule selected by the source loop is the last rule in declaration order
whose pattern matches the pathname (the query string never enters the
test); and a GET request matching no rule passes through with no cache
effect. -/
theorem claim_C3_match (pkgVersion version : String) (rules : List Rule) (req : Request)
    (bodyRead ctRead : ReadResult) :
    (req.method ≠ "GET" →
      webcacheHandle pkgVersion version rules req bodyRead ctRead = Outcome.passthrough) ∧
    matchRule rules (urlPathname req.url) = lastMatchingRule rules (urlPathname req.url) ∧
    (req.method = "GET" → matchRule rules (urlPathname req.url) = none →
      webcacheHandle pkgVersion version rules req bodyRead ctRead = Outcome.passthrough) := by
  refine ⟨?_, matchRule_eq_lastMatchingRule rules (urlPathname req.url), ?_⟩
  · intro hne
    unfold webcacheHandle
    rw [if_pos hne]
  · intro hg hnone
    unfold webcacheHandle
    rw [if_neg (by simp [hg]), hnone]

/-- C3 witness: a concrete POST request passes through, and on a concrete
rule list the loop result agrees with the last-matching-rule policy. -/
theorem claim_C3_match_witness :
    webcacheHandle "0.0.4" "2012" [sampleRule] ⟨"POST", "/a", none⟩
      ReadResult.err ReadResult.err = Outcome.passthrough ∧
    matchRule [sampleRule] (urlPathname "/a") = lastMatchingRule [sampleRule] (urlPathname "/a") :=
  ⟨(claim_C3_match "0.0.4" "2012" [sampleRule] ⟨"POST", "/a", none⟩
      ReadResult.err ReadResult.err).1 (by decide),
   (claim_C3_match "0.0.4" "2012" [sampleRule] ⟨"POST", "/a", none⟩
      ReadResult.err ReadResult.err).2.1⟩

/-- C4, counterexample to the claim as stated: the requests with effective
paths wc-prefixed from /a_ and /a differ in path and the configured
versions (empty versus underscore) differ as well, yet both derive the
same cache key, so keys are not always distinct across different paths
and versions. -/
theorem claim_C4_counterexample :
    effectiveUrl sampleRule "/a_" ≠ effectiveUrl sampleRule "/a" ∧
    ("" : String) ≠ "_" ∧
    cacheKey "" sampleRule "/a_" = cacheKey "_" sampleRule "/a" := by
  refine ⟨by decide, by decide, by decide⟩

/-- C4 as amended: under an ignore-querystring rule two urls with the same
pathname derive the same key; for one fixed version the key determines the
effective url, and for one fixed effective url the key determines the
version; but when path and version vary together the key is not injective,
as the counterexample shows. -/
theorem claim_C4_amended (version v₁ v₂ : String) (rule r₁ r₂ : Rule) (u₁ u₂ : String) :
    (rule.ignoreQuerystring = true → urlPathname u₁ = urlPathname u₂ →
      cacheKey version rule u₁ = cacheKey version rule u₂) ∧
    (cacheKey version r₁ u₁ = cacheKey version r₂ u₂ →
      effectiveUrl r₁ u₁ = effectiveUrl r₂ u₂) ∧
    (effectiveUrl r₁ u₁ = effectiveUrl r₂ u₂ →
      cacheKey v₁ r₁ u₁ = cacheKey v₂ r₂ u₂ → v₁ = v₂) := by
  refine ⟨?_, cacheKey_inj_url version r₁ r₂ u₁ u₂,
    cacheKey_inj_version v₁ v₂ r₁ r₂ u₁ u₂⟩
  intro h1 h2
  unfold cacheKey effectiveUrl
  rw [if_pos h1, if_pos h1, h2]

/-- C4 witness: two concrete urls differing only in the query string share
one key under an ignore-querystring rule, and with the version fixed two
distinct effective urls are forced apart by the key. -/
theorem claim_C4_amended_witness :
    cacheKey "2012" sampleRuleIgnore "/a?x=1" = cacheKey "2012" sampleRuleIgnore "/a?y=2" ∧
    (cacheKey "2012" sampleRule "/a" = cacheKey "2012" sampleRule "/b" →
      effectiveUrl sampleRule "/a" = effectiveUrl sampleRule "/b") :=
  ⟨(claim_C4_amended "2012" "" "" sampleRuleIgnore sampleRuleIgnore sampleRuleIgnore
      "/a?x=1" "/a?y=2").1 rfl (by decide),
   (claim_C4_amended "2012" "" "" sampleRule sampleRule sampleRule "/a" "/b").2.1⟩

/-- C5: a record written to the in-memory store with a non-zero TTL is
returned unchanged by a get strictly before the write instant plus the
TTL; a get at or after that instant is a miss that also deletes the
record; and a record written with a zero TTL is returned forever. -/
theorem claim_C5_ttl (st : MemoryStore) (key : String) (value : Option String)
    (maxAge t now : Nat) :
    (maxAge ≠ 0 → now < t + maxAge →
      MemoryStore.get (MemoryStore.set st key value maxAge t) key now =
        (MemoryStore.set st key value maxAge t, value)) ∧
    (maxAge ≠ 0 → t + maxAge ≤ now →
      (MemoryStore.get (MemoryStore.set st key value maxAge t) key now).2 = none ∧
      ((MemoryStore.get (MemoryStore.set st key value maxAge t) key now).1.data.find?
        (fun e => e.1 == key)) = none) ∧
    (maxAge = 0 →
      MemoryStore.get (MemoryStore.set st key value maxAge t) key now =
        (MemoryStore.set st key value maxAge t, value)) := by
  refine ⟨?_, ?_, ?_⟩
  · intro hm hlt
    exact memGet_memSet_fresh st key value maxAge t now (fun _ => hlt)
  · intro hm hle
    rw [memGet_memSet_expired st key value maxAge t now hm hle]
    exact ⟨rfl, find?_filter_ne_key st.data key⟩
  · intro hm
    exact memGet_memSet_fresh st key value maxAge t now (fun hne => absurd hm hne)

/-- C5 witness: a concrete record with TTL 500 written at instant 10 is a
hit at instant 509, a purging miss at instant 510, and a record with TTL
zero is still a hit far in the future. -/
theorem claim_C5_ttl_witness :
    MemoryStore.get (MemoryStore.set ⟨[]⟩ "k" (some "v") 500 10) "k" 509 =
      (MemoryStore.set ⟨[]⟩ "k" (some "v") 500 10, some "v") ∧
    (MemoryStore.get (MemoryStore.set ⟨[]⟩ "k" (some "v") 500 10) "k" 510).2 = none ∧
    MemoryStore.get (MemoryStore.set ⟨[]⟩ "k" (some "v") 0 10) "k" 999999 =
      (MemoryStore.set ⟨[]⟩ "k" (some "v") 0 10, some "v") :=
  ⟨(claim_C5_ttl ⟨[]⟩ "k" (some "v") 500 10 509).1 (by decide) (by decide),
   ((claim_C5_ttl ⟨[]⟩ "k" (some "v") 500 10 510).2.1 (by decide) (by decide)).1,
   (claim_C5_ttl ⟨[]⟩ "k" (some "v") 0 10 999999).2.2 rfl⟩

/-- C6: for a matched GET request the derived cache key is exactly the
string wc underscore effectiveUrl underscore version, where the effective
url is the full request url unless the matched rule ignores the query
string, in which case it is the pathname only; the companion content-type
key the middleware hands to the capture path is always that key with the
ct suffix appended. -/
theorem claim_C6_key (pkgVersion version : String) (rules : List Rule) (req : Request)
    (rule : Rule)
    (hm : req.method = "GET")
    (hr : matchRule rules (urlPathname req.url) = some rule) :
    cacheKey version rule req.url =
      "wc_" ++ (if rule.ignoreQuerystring then urlPathname req.url else req.url)
        ++ "_" ++ version ∧
    webcacheHandle pkgVersion version rules req (ReadResult.ok none) (ReadResult.ok none) =
      Outcome.capture (cacheKey version rule req.url)
        (cacheKey version rule req.url ++ "_ct") rule.maxAge := by
  constructor
  · rfl
  · unfold webcacheHandle
    rw [if_neg (by simp [hm]), hr]
    simp [optTruthy]

/-- C6 witness: concrete keys for a query-bearing url under a rule that
ignores the query string and under one that does not. -/
theorem claim_C6_key_witness :
    cacheKey "2012" sampleRuleIgnore "/a?x=1" =
      "wc_" ++ (if sampleRuleIgnore.ignoreQuerystring then urlPathname "/a?x=1" else "/a?x=1")
        ++ "_" ++ "2012" ∧
    webcacheHandle "0.0.4" "2012" [sampleRuleIgnore] ⟨"GET", "/a?x=1", none⟩
        (ReadResult.ok none) (ReadResult.ok none) =
      Outcome.capture (cacheKey "2012" sampleRuleIgnore "/a?x=1")
        (cacheKey "2012" sampleRuleIgnore "/a?x=1" ++ "_ct") sampleRuleIgnore.maxAge :=
  ⟨(claim_C6_key "0.0.4" "2012" [sampleRuleIgnore] ⟨"GET", "/a?x=1", none⟩
      sampleRuleIgnore rfl rfl).1,
   (claim_C6_key "0.0.4" "2012" [sampleRuleIgnore] ⟨"GET", "/a?x=1", none⟩
      sampleRuleIgnore rfl rfl).2⟩

/-- C7, counterexample to the claim as stated: after a set with a falsy
(empty string) value, the in-memory store still holds a record under the
key, and a subsequent get returns the stored empty value rather than
absent, so not every backend interprets a falsy set as a deletion. -/
theorem claim_C7_counterexample :
    ((MemoryStore.set ⟨[]⟩ "k" (some "") 0 0).data.find? (fun e => e.1 == "k")).isSome
      = true ∧
    (MemoryStore.get (MemoryStore.set ⟨[]⟩ "k" (some "") 0 0) "k" 0).2 = some "" := by
  decide

/-- C7 as amended: the remote-backend adapter does interpret a falsy value
as a deletion request (it issues del); the in-memory store instead
overwrites the record with the falsy value, so the key remains present and
a subsequent get returns that falsy value, which the middleware treats as
a miss by its truthiness check. -/
theorem claim_C7_amended (k : String) (v : Option String) (m t : Nat) (st : MemoryStore)
    (hf : optTruthy v = false) :
    RedisStore.set k v m = RedisCall.del k ∧
    ((MemoryStore.set st k v m t).data.find? (fun e => e.1 == k)).isSome = true ∧
    (MemoryStore.get (MemoryStore.set st k v m t) k t).2 = v ∧
    optTruthy (MemoryStore.get (MemoryStore.set st k v m t) k t).2 = false := by
  have hget : MemoryStore.get (MemoryStore.set st k v m t) k t =
      (MemoryStore.set st k v m t, v) :=
    memGet_memSet_fresh st k v m t t (fun hm => by omega)
  refine ⟨?_, ?_, ?_, ?_⟩
  · unfold RedisStore.set
    rw [if_pos hf]
  · simp [MemoryStore.set]
  · rw [hget]
  · rw [hget]
    exact hf

/-- C7 witness: the amended theorem at the concrete null value. -/
theorem claim_C7_amended_witness :
    RedisStore.set "k" none 0 = RedisCall.del "k" ∧
    (MemoryStore.get (MemoryStore.set ⟨[]⟩ "k" none 0 0) "k" 0).2 = none :=
  ⟨(claim_C7_amended "k" none 0 0 ⟨[]⟩ rfl).1,
   (claim_C7_amended "k" none 0 0 ⟨[]⟩ rfl).2.2.1⟩

/-- C8: for a truthy value the remote-backend adapter stores with no
expiry flag when the TTL is absent or below 1000 ms, and stores with
expiry floor of the TTL over 1000 in whole seconds when the TTL is at
least 1000 ms; the in-memory backend meanwhile honours any non-zero TTL at
millisecond precision, expiring exactly at the write instant plus the TTL. -/
theorem claim_C8_ttl (k : String) (v : Option String) (m : Nat)
    (hv : optTruthy v = true) :
    (m < 1000 → RedisStore.set k v m = RedisCall.set k (v.getD "")) ∧
    (1000 ≤ m → RedisStore.set k v m = RedisCall.setex k (m / 1000) (v.getD "")) ∧
    (∀ (st : MemoryStore) (key : String) (t : Nat), m ≠ 0 →
      (MemoryStore.get (MemoryStore.set st key v m t) key (t + m)).2 = none ∧
      ∀ now, now < t + m →
        (MemoryStore.get (MemoryStore.set st key v m t) key now).2 = v) := by
  refine ⟨?_, ?_, ?_⟩
  · intro hlt
    unfold RedisStore.set
    rw [if_neg (by simp [hv])]
    have hcond : ¬ (m ≠ 0 ∧ 1000 ≤ m) := by omega
    rw [if_neg hcond]
    simp
  · intro hge
    unfold RedisStore.set
    rw [if_neg (by simp [hv])]
    have hc : m ≠ 0 ∧ 1000 ≤ m := by omega
    rw [if_pos hc]
    have hdiv : m / 1000 ≠ 0 := by omega
    rw [if_pos hdiv]
  · intro st key t hm
    constructor
    · rw [memGet_memSet_expired st key v m t (t + m) hm (Nat.le_refl _)]
    · intro now hnow
      rw [memGet_memSet_fresh st key v m t now (fun _ => hnow)]

/-- C8 witness: a 1500 ms TTL becomes setex with one second, a 999 ms TTL
becomes a plain set, and a 500 ms TTL in the in-memory store expires at
exactly 500 ms after the write. -/
theorem claim_C8_ttl_witness :
    RedisStore.set "k" (some "v") 1500 = RedisCall.setex "k" 1 "v" ∧
    RedisStore.set "k" (some "v") 999 = RedisCall.set "k" "v" ∧
    (MemoryStore.get (MemoryStore.set ⟨[]⟩ "k" (some "v") 500 10) "k" 510).2 = none :=
  ⟨by
    have h := (claim_C8_ttl "k" (some "v") 1500 rfl).2.1 (by decide)
    simpa using h,
   by
    have h := (claim_C8_ttl "k" (some "v") 999 rfl).1 (by decide)
    simpa using h,
   by
    have h := ((claim_C8_ttl "k" (some "v") 500 rfl).2.2 ⟨[]⟩ "k" 10 (by decide)).1
    simpa using h⟩

/-- C9: for a matched GET request, an error on either of the two store
reads sends the request down the capture path, exactly as a cache miss
would, with the origin handler invoked under the capture wrapper; the
wrapper forwards every origin chunk unchanged, so the client receives the
origin response. -/
theorem claim_C9_readError (pkgVersion version : String) (rules : List Rule)
    (req : Request) (bodyRead ctRead : ReadResult) (rule : Rule)
    (hm : req.method = "GET")
    (hr : matchRule rules (urlPathname req.url) = some rule)
    (he : bodyRead = ReadResult.err ∨ ctRead = ReadResult.err) :
    webcacheHandle pkgVersion version rules req bodyRead ctRead =
      Outcome.capture (cacheKey version rule req.url)
        (cacheKey version rule req.url ++ "_ct") rule.maxAge ∧
    webcacheHandle pkgVersion version rules req bodyRead ctRead =
      webcacheHandle pkgVersion version rules req (ReadResult.ok none) (ReadResult.ok none) ∧
    ∀ originChunks : List String, (captureRun originChunks).1 = originChunks := by
  have hmiss : webcacheHandle pkgVersion version rules req
      (ReadResult.ok none) (ReadResult.ok none) =
      Outcome.capture (cacheKey version rule req.url)
        (cacheKey version rule req.url ++ "_ct") rule.maxAge := by
    unfold webcacheHandle
    rw [if_neg (by simp [hm]), hr]
    simp [optTruthy]
  have herr : webcacheHandle pkgVersion version rules req bodyRead ctRead =
      Outcome.capture (cacheKey version rule req.url)
        (cacheKey version rule req.url ++ "_ct") rule.maxAge := by
    unfold webcacheHandle
    rw [if_neg (by simp [hm]), hr]
    rcases he with rfl | rfl
    · rfl
    · cases bodyRead <;> rfl
  refine ⟨herr, ?_, fun cs => congrArg Prod.fst (captureRun_pair cs)⟩
  rw [herr, hmiss]

/-- C9 witness: a concrete matched GET request whose body read errors is
dispatched to the capture path. -/
theorem claim_C9_readError_witness :
    webcacheHandle "0.0.4" "2012" [sampleRule] ⟨"GET", "/a", none⟩
        ReadResult.err (ReadResult.ok (some "text/html")) =
      Outcome.capture (cacheKey "2012" sampleRule "/a")
        (cacheKey "2012" sampleRule "/a" ++ "_ct") sampleRule.maxAge :=
  (claim_C9_readError "0.0.4" "2012" [sampleRule] ⟨"GET", "/a", none⟩
    ReadResult.err (ReadResult.ok (some "text/html")) sampleRule rfl rfl
    (Or.inl rfl)).1

/-- C10: beyond the four documented conditions, the flush persists only
when the Content-Type value matches the case-insensitive text-like
pattern; whenever every possible content type of the response fails
TEXT_RE, no store write is issued. -/
theorem claim_C10_textOnly (key keyContentType : String) (maxAge : Nat)
    (res : CaptureResponse)
    (h : ∀ ct, res.contentType = some ct → TEXT_RE_test ct = false) :
    resEndFlush key keyContentType maxAge res = [] := by
  by_contra hne
  obtain ⟨_, _, _, ct, hct, htext⟩ :=
    (resEndFlush_spec key keyContentType maxAge res).1.mp hne
  rw [h ct hct] at htext
  exact Bool.false_ne_true htext

/-- C10 witness: a 200 image/png response with a non-empty buffer is not
persisted. -/
theorem claim_C10_textOnly_witness :
    resEndFlush "wc_/img_" "wc_/img__ct" 3600000
      ⟨200, none, some "image/png", ["PNGDATA"]⟩ = [] :=
  claim_C10_textOnly "wc_/img_" "wc_/img__ct" 3600000
    ⟨200, none, some "image/png", ["PNGDATA"]⟩
    (by
      intro ct hct
      injection hct with hct2
      subst hct2
      decide)

end WebCache
